import Mathlib

/-!
Shallow embedding of the SVG viewer component (src/src/components/SVGViewer.tsx).

The component is a single React widget; its logic consists of pure string and
number manipulation plus a few browser effects (DOM parsing, canvas drawing,
clipboard, file saving).  The pure logic is translated directly; each browser
effect is modelled by an explicit input describing its outcome:
  - the result of DOMParser.parseFromString + querySelector, as an
    `Option SvgEl` carrying the root element's width/height/viewBox attributes
    (the only attributes the code ever reads or writes);
  - image decoding and canvas-2d-context acquisition as success Booleans;
  - clipboard reads as an `Except Unit String`.
JavaScript numbers are modelled as `Option ℚ` with `none` standing for NaN;
the arithmetic performed by the component (parsing literals, comparing with
zero) is exact, so rationals are faithful to IEEE doubles here.
-/

/-- ASCII decimal digit test, as used by the JS numeric grammars. -/
def isAsciiDigit (c : Char) : Bool := '0' ≤ c && c ≤ '9'

/-- Numeric value of a decimal digit character. -/
def digitVal (c : Char) : ℕ := c.toNat - 48

/-- Value of a list of decimal digits, most significant first. -/
def digitsToNat (ds : List Char) : ℕ := ds.foldl (fun a c => 10 * a + digitVal c) 0

/-- JS WhiteSpace/LineTerminator characters recognised by Number() and
parseInt() (the ASCII ones; exotic Unicode space characters are not
modelled, none occur in SVG attribute data). -/
def isJsWs (c : Char) : Bool :=
  c = ' ' || c = '\t' || c = '\n' || c = '\r' || c = '\x0B' || c = '\x0C'

/-- Remove leading and trailing JS whitespace. -/
def trimJsWs (cs : List Char) : List Char :=
  ((cs.dropWhile isJsWs).reverse.dropWhile isJsWs).reverse

/-- Optional exponent part of a JS decimal literal: either nothing, or
an e/E, an optional sign and one or more digits consuming the rest. -/
def parseExpPart : List Char → Option ℤ
  | [] => some 0
  | c :: cs =>
    if c = 'e' ∨ c = 'E' then
      match cs with
      | '+' :: ds => if ds ≠ [] ∧ ds.all isAsciiDigit then some (digitsToNat ds) else none
      | '-' :: ds => if ds ≠ [] ∧ ds.all isAsciiDigit then some (-(digitsToNat ds : ℤ)) else none
      | ds => if ds ≠ [] ∧ ds.all isAsciiDigit then some (digitsToNat ds) else none
    else none

/-- Mantissa of a JS decimal literal: digits, optionally followed by a dot
and further digits (at least one digit in total).  Returns the value and the
unconsumed remainder. -/
def parseDecMantissa (cs : List Char) : Option (ℚ × List Char) :=
  let (intDs, rest) := cs.span isAsciiDigit
  match rest with
  | '.' :: rest2 =>
    let (fracDs, rest3) := rest2.span isAsciiDigit
    if intDs.isEmpty && fracDs.isEmpty then none
    else some ((digitsToNat intDs : ℚ) + (digitsToNat fracDs : ℚ) / (10 : ℚ) ^ fracDs.length,
               rest3)
  | _ => if intDs.isEmpty then none else some ((digitsToNat intDs : ℚ), rest)

/-- Unsigned JS decimal literal: mantissa followed by an optional exponent. -/
def parseUnsignedNum (cs : List Char) : Option ℚ := do
  let (m, rest) ← parseDecMantissa cs
  let e ← parseExpPart rest
  some (m * (10 : ℚ) ^ e)

/-- JS Number() conversion of a string, modelled for the decimal forms
(optional sign, digits, fraction, exponent, surrounding whitespace; the empty
string converts to 0).  Hexadecimal/octal/binary and Infinity literals are not
modelled; they do not occur in SVG dimension data.  `none` stands for NaN. -/
def jsNumber (s : String) : Option ℚ :=
  match trimJsWs s.toList with
  | [] => some 0
  | '+' :: cs => parseUnsignedNum cs
  | '-' :: cs => (parseUnsignedNum cs).map (fun q => -q)
  | cs => parseUnsignedNum cs

/-- Leading decimal digits with a sign already consumed: the core of
parseInt.  `none` stands for NaN (no digits at all). -/
def parseIntDigits (cs : List Char) (sgn : ℤ) : Option ℤ :=
  let ds := cs.takeWhile isAsciiDigit
  if ds.isEmpty then none else some (sgn * digitsToNat ds)

/-- JS parseInt(s) with the default radix: skip leading whitespace, read an
optional sign and then the longest prefix of decimal digits.  The 0x
hexadecimal prefix is not modelled; it does not occur in SVG dimension data.
`none` stands for NaN. -/
def jsParseInt (s : String) : Option ℤ :=
  match s.toList.dropWhile isJsWs with
  | '+' :: cs => parseIntDigits cs 1
  | '-' :: cs => parseIntDigits cs (-1)
  | cs => parseIntDigits cs 1

/-- JS String.prototype.trim: remove leading and trailing whitespace. -/
def jsTrim (s : String) : String := String.mk (trimJsWs s.toList)

/-- Truthiness of a JS number: NaN and 0 are falsy. -/
def jsFalsy : Option ℚ → Bool
  | none => true
  | some q => decide (q = 0)

/-- Case-insensitive character comparison, as performed by a regex /i flag
(ASCII case folding). -/
def lcEq (a b : Char) : Bool := a.toLower == b.toLower

/-- Strip a case-insensitive pattern from the front of a character list,
returning the remainder when the whole pattern matches. -/
def stripCiStart : List Char → List Char → Option (List Char)
  | [], cs => some cs
  | _ :: _, [] => none
  | p :: ps, c :: cs => if lcEq p c then stripCiStart ps cs else none

/-- Does the pattern occur case-insensitively anywhere in the list? -/
def containsCi (pat : List Char) : List Char → Bool
  | [] => (stripCiStart pat []).isSome
  | c :: cs => (stripCiStart pat (c :: cs)).isSome || containsCi pat cs

/-- After the literal <svg of the regex, [^>]*> forces a scan to the first
closing angle bracket; the closing tag may then occur anywhere later. -/
def afterOpenTag : List Char → Bool
  | [] => false
  | c :: rest => if c = '>' then containsCi ("</svg>".toList) rest else afterOpenTag rest

/-- Try the regex match at every start position. -/
def isValidSvgAux : List Char → Bool
  | [] => false
  | c :: cs =>
    (match stripCiStart ("<svg".toList) (c :: cs) with
      | some rest => afterOpenTag rest
      | none => false) || isValidSvgAux cs

/-- SVGViewer.tsx lines 268-270: isValidSvg tests the code against the regex
<svg[^>]*>[\s\S]*<\/svg> with the i flag. -/
def isValidSvg (code : String) : Bool := isValidSvgAux code.toList

/-- Case-insensitive correspondence between a pattern and a character list,
stated independently of the matcher (used to express the spec's wording of
the validity check). -/
def ciMatches (pat l : List Char) : Prop := List.Forall₂ (fun p c => lcEq p c = true) pat l

/-- Wording of the claim for the validity check: the string contains, case
insensitively, an opening tag <svg...> (with no closing angle bracket inside
the ...) followed somewhere later by a closing tag </svg>. -/
def matchesSvgTags (s : String) : Prop :=
  ∃ p o m q c r : List Char,
    s.toList = p ++ o ++ m ++ '>' :: (q ++ c ++ r) ∧
    ciMatches ("<svg".toList) o ∧ '>' ∉ m ∧ ciMatches ("</svg>".toList) c

/-- Value of an attribute after the component has run: either a string kept
from the input document or written as a literal, or the n.toString() rendering
of a computed JS number. -/
inductive AttrVal
  | str (s : String)
  | ofNum (n : Option ℚ)
deriving DecidableEq

/-- Root svg element as seen through the DOM calls the component makes:
width, height and viewBox are the only attributes it reads or writes (all
other attributes pass through untouched).  A field is `none` when
hasAttribute is false; getAttribute then returns null. -/
structure SvgEl where
  width : Option String
  height : Option String
  viewBox : Option String
deriving DecidableEq

/-- JS String.prototype.split(' ') over character lists: split at every
single space, keeping empty pieces. -/
def splitOnSpace : List Char → List (List Char)
  | [] => [[]]
  | c :: rest =>
    match splitOnSpace rest with
    | [] => if c = ' ' then [[], []] else [[c]]
    | cur :: more => if c = ' ' then [] :: cur :: more else (c :: cur) :: more

/-- JS String.prototype.split(' '). -/
def jsSplitSpace (s : String) : List String := (splitOnSpace s.toList).map String.mk

/-- getAttribute('viewBox')?.split(' ').map(Number) on a present viewBox. -/
def splitViewBox (vbs : String) : List (Option ℚ) :=
  (jsSplitSpace vbs).map jsNumber

/-- Width and height attributes of the root element after a run of the
dimension normalization. -/
structure DimAttrs where
  width : Option AttrVal
  height : Option AttrVal
deriving DecidableEq

/-- SVGViewer.tsx lines 55-79, the body of ensureSvgDimensions between the
parse and the reserialization: if width or height is missing and a viewBox
with four space-separated components exists, the missing ones are set from
the third and fourth components; any attribute still missing afterwards is
set to the literal '300'. -/
def ensureSvgDimensionsCore (el : SvgEl) : DimAttrs :=
  let d0 : DimAttrs := ⟨el.width.map .str, el.height.map .str⟩
  let d1 :=
    if (el.width = none ∨ el.height = none) ∧ el.viewBox ≠ none then
      let vb := splitViewBox (el.viewBox.getD "")
      if vb.length = 4 then
        let d := if el.width = none then { d0 with width := some (.ofNum (vb.getD 2 none)) }
                 else d0
        if el.height = none then { d with height := some (.ofNum (vb.getD 3 none)) } else d
      else d0
    else d0
  let d2 := if d1.width = none then { d1 with width := some (.str "300") } else d1
  if d2.height = none then { d2 with height := some (.str "300") } else d2

/-- Return value of ensureSvgDimensions: either the input string handed back
unchanged, or the XMLSerializer.serializeToString rendering of the parsed
document whose root element now carries the given width/height attributes
(serialization itself is a browser primitive; its output for a parsed
document is never the empty string). -/
inductive EnsureOut
  | original (s : String)
  | reserialized (el : SvgEl) (dims : DimAttrs)
deriving DecidableEq

/-- SVGViewer.tsx lines 50-82: ensureSvgDimensions returns the code unchanged
when it is empty or fails isValidSvg or yields no svg root, and otherwise
reserializes the document with the normalized dimension attributes.
`parsed` is the outcome of DOMParser + querySelector('svg') on the code. -/
def ensureSvgDimensions (svgCode : String) (parsed : Option SvgEl) : EnsureOut :=
  if svgCode = "" ∨ isValidSvg svgCode = false then .original svgCode
  else
    match parsed with
    | none => .original svgCode
    | some el => .reserialized el (ensureSvgDimensionsCore el)

/-- getAttribute('width') || '0': null and the empty string fall back to
the literal '0'. -/
def attrOrZero : Option String → String
  | none => "0"
  | some s => if s = "" then "0" else s

/-- SVGViewer.tsx lines 145-146: width/height as parseInt of the attribute
(or of '0' when absent), cast into the JS number domain. -/
def exportAttrDims (el : SvgEl) : Option ℚ × Option ℚ :=
  ((jsParseInt (attrOrZero el.width)).map (fun i => (i : ℚ)),
   (jsParseInt (attrOrZero el.height)).map (fun i => (i : ℚ)))

/-- SVGViewer.tsx lines 145-161: the export dimensions — attribute values,
then both replaced from a four-component viewBox when either is falsy (0 or
NaN), then 800x600 when either is still falsy. -/
def exportDims (el : SvgEl) : Option ℚ × Option ℚ :=
  let wh0 := exportAttrDims el
  let wh1 :=
    if jsFalsy wh0.1 || jsFalsy wh0.2 then
      match el.viewBox with
      | some vbs =>
        let vb := splitViewBox vbs
        if vb.length = 4 then (vb.getD 2 none, vb.getD 3 none) else wh0
      | none => wh0
    else wh0
  if jsFalsy wh1.1 || jsFalsy wh1.2 then ((some 800, some 600) : Option ℚ × Option ℚ)
  else wh1

/-- Toast notifications shown by react-toastify. -/
inductive Toast
  | success (msg : String)
  | error (msg : String)
  | info (msg : String)
deriving DecidableEq

/-- Content handed to saveAs: a canvas.toDataURL rendering of the given
canvas dimensions, or a Blob built from a string with a MIME type. -/
inductive SavedContent
  | pngDataUrl (w h : Option ℚ)
  | jpegDataUrl (w h : Option ℚ)
  | blobStr (content : String) (mime : String)
deriving DecidableEq

inductive ExportFormat
  | png
  | jpeg
  | svg
deriving DecidableEq

/-- Uppercase format name used in the success toast. -/
def formatUpper : ExportFormat → String
  | .png => "PNG"
  | .jpeg => "JPEG"
  | .svg => "SVG"

/-- Outcome of one run of exportAsImage: the toasts raised, the file saved
(if any) and the canvas dimensions used (if the canvas stage was reached). -/
structure ExportResult where
  toasts : List Toast
  saved : Option (String × SavedContent)
  canvas : Option (Option ℚ × Option ℚ)
deriving DecidableEq

/-- SVGViewer.tsx lines 127-222: exportAsImage.  Guard on empty code, parse
(`parsed` is the DOMParser + querySelector outcome), dimension inference,
data-URL image load and canvas draw (their failure points are the `imgLoadOk`
and `ctxOk` inputs; a failure is caught by the surrounding try/catch which
raises the single retry error toast), then a save per format — the svg format
saves a Blob of the untouched svgCode string. -/
def exportAsImage (svgCode fileName : String) (format : ExportFormat)
    (parsed : Option SvgEl) (imgLoadOk ctxOk : Bool) : ExportResult :=
  if svgCode = "" then
    { toasts := [.error "没有SVG代码可导出"], saved := none, canvas := none }
  else
    match parsed with
    | none => { toasts := [.error "无效的SVG代码"], saved := none, canvas := none }
    | some el =>
      let wh := exportDims el
      if imgLoadOk = false then
        { toasts := [.error "导出失败，请重试"], saved := none, canvas := none }
      else if ctxOk = false then
        { toasts := [.error "导出失败，请重试"], saved := none, canvas := none }
      else
        let saved : String × SavedContent :=
          match format with
          | .png => (fileName ++ ".png", .pngDataUrl wh.1 wh.2)
          | .jpeg => (fileName ++ ".jpg", .jpegDataUrl wh.1 wh.2)
          | .svg => (fileName ++ ".svg", .blobStr svgCode "image/svg+xml;charset=utf-8")
        { toasts := [.success ("导出为 " ++ formatUpper format)],
          saved := some saved, canvas := some wh }

/-- SVGViewer.tsx lines 224-233: downloadSvgCode guards on whitespace-only
code and otherwise saves a text/plain Blob of the code as fileName.svg. -/
def downloadSvgCode (svgCode fileName : String) : List Toast × Option (String × SavedContent) :=
  if jsTrim svgCode = "" then ([.error "没有 SVG 代码可下载"], none)
  else ([.success "SVG 代码已下载"],
        some (fileName ++ ".svg", .blobStr svgCode "text/plain;charset=utf-8"))

/-- SVGViewer.tsx lines 235-248: copySvgCode guards on whitespace-only code;
`writeOk` is the clipboard write outcome, whose failure is caught and turned
into an error toast.  The Bool result records whether the code was copied. -/
def copySvgCode (svgCode : String) (writeOk : Bool) : List Toast × Bool :=
  if jsTrim svgCode = "" then ([.error "没有 SVG 代码可复制"], false)
  else if writeOk then ([.success "SVG 代码已复制到剪贴板"], true)
  else ([.error "复制到剪贴板失败"], false)

/-- SVGViewer.tsx lines 112-125: handlePasteFromClipboard.  `clip` is the
navigator.clipboard.readText outcome (`Except.error` when the read rejects,
which the catch turns into an error toast).  Returns the new editor text and
the toasts raised. -/
def handlePasteFromClipboard (svgCode : String) (clip : Except Unit String) :
    String × List Toast :=
  match clip with
  | .ok t =>
    if isValidSvg t then (t, [.success "已从剪贴板导入SVG"])
    else (svgCode, [.error "剪贴板内容不是有效的SVG"])
  | .error _ => (svgCode, [.error "从剪贴板读取失败"])

/-- Local component state relevant to the claims. -/
structure ViewerState where
  svgCode : String
  previewSvgCode : EnsureOut
  scale : ℚ
deriving DecidableEq

/-- SVGViewer.tsx lines 272-275: clearSvgCode sets the editor text to the
empty string and raises an info toast. -/
def clearSvgCode (st : ViewerState) : ViewerState × List Toast :=
  ({ st with svgCode := "" }, [.info "SVG 内容已清除"])

/-- SVGViewer.tsx lines 308-314: the CodeMirror update listener sets svgCode
to the new document text and previewSvgCode to its dimension-normalized
form. -/
def onEditorDocChanged (st : ViewerState) (newSvgCode : String) (parsed : Option SvgEl) :
    ViewerState :=
  { st with svgCode := newSvgCode,
            previewSvgCode := ensureSvgDimensions newSvgCode parsed }

/-- Clearing followed by the editor synchronisation round trip: the svgCode
effect (lines 331-340) dispatches the new text into the editor, whose update
listener recomputes the preview. -/
def clearThenSync (st : ViewerState) (parsed : Option SvgEl) : ViewerState × List Toast :=
  let cleared := clearSvgCode st
  (onEditorDocChanged cleared.1 cleared.1.svgCode parsed, cleared.2)

/-- SVGViewer.tsx lines 429-443: the preview pane renders the placeholder
text exactly when previewSvgCode is falsy, i.e. the empty string (a
reserialized document is a nonempty string). -/
def previewShowsPlaceholder : EnsureOut → Bool
  | .original s => decide (s = "")
  | .reserialized _ _ => false

/-- SVGViewer.tsx lines 254-256: zoomIn. -/
def zoomIn (s : ℚ) : ℚ := min (s + 1/10) 3

/-- SVGViewer.tsx lines 258-260: zoomOut. -/
def zoomOut (s : ℚ) : ℚ := max (s - 1/10) (1/10)

/-- One user interaction with the zoom controls: the two buttons, or the
range slider (whose value the browser keeps within min 0.1 and max 3). -/
inductive ZoomOp
  | zin
  | zout
  | slider (v : ℚ)

/-- Effect of a zoom interaction on the scale state (slider: lines 411-422,
handleScaleChange sets the parsed slider value). -/
def applyZoom (s : ℚ) : ZoomOp → ℚ
  | .zin => zoomIn s
  | .zout => zoomOut s
  | .slider v => v

/-- A slider event carries a value within the input element's min/max. -/
def ZoomOp.valid : ZoomOp → Prop
  | .slider v => 1/10 ≤ v ∧ v ≤ 3
  | _ => True

/-- SVGViewer.tsx line 38: initial scale state. -/
def initialScale : ℚ := 1

/-- SVGViewer.tsx line 466: disabled={!svgCode || !isValidSvg(svgCode)}. -/
def exportPngDisabled (svgCode : String) : Bool :=
  decide (svgCode = "") || !(isValidSvg svgCode)

/-- SVGViewer.tsx line 474: disabled={!svgCode || !isValidSvg(svgCode)}. -/
def exportJpegDisabled (svgCode : String) : Bool :=
  decide (svgCode = "") || !(isValidSvg svgCode)

/-- SVGViewer.tsx line 482: disabled={!svgCode}. -/
def downloadSvgDisabled (svgCode : String) : Bool :=
  decide (svgCode = "")

/-- SVGViewer.tsx line 490: disabled={!svgCode}. -/
def copySvgDisabled (svgCode : String) : Bool :=
  decide (svgCode = "")

/-- Bound preservation of a single zoom interaction. -/
theorem applyZoom_bounds (s : ℚ) (op : ZoomOp) (hop : op.valid)
    (h1 : 1/10 ≤ s) (h2 : s ≤ 3) :
    1/10 ≤ applyZoom s op ∧ applyZoom s op ≤ 3 := by
  cases op with
  | zin =>
    refine ⟨le_min (by linarith) (by norm_num), min_le_right _ _⟩
  | zout =>
    refine ⟨le_max_right _ _, max_le (by linarith) (by norm_num)⟩
  | slider v => exact hop

/-- Bound preservation along any interaction sequence. -/
theorem foldl_applyZoom_bounds :
    ∀ (ops : List ZoomOp) (s : ℚ), (∀ op ∈ ops, op.valid) →
      1/10 ≤ s → s ≤ 3 →
      1/10 ≤ ops.foldl applyZoom s ∧ ops.foldl applyZoom s ≤ 3 := by
  intro ops
  induction ops with
  | nil => intro s _ h1 h2; exact ⟨h1, h2⟩
  | cons op rest ih =>
    intro s hv h1 h2
    have h := applyZoom_bounds s op (hv op (by simp)) h1 h2
    simpa using ih (applyZoom s op) (fun o ho => hv o (by simp [ho])) h.1 h.2

/-- C9: starting from the initial scale 1, any sequence of zoom-in, zoom-out
and slider interactions (slider values within the input's min 0.1 and max 3)
keeps the preview zoom factor within [0.1, 3]. -/
theorem c9_zoom_scale_bounded (ops : List ZoomOp) (h : ∀ op ∈ ops, op.valid) :
    1/10 ≤ ops.foldl applyZoom initialScale ∧ ops.foldl applyZoom initialScale ≤ 3 :=
  foldl_applyZoom_bounds ops initialScale h (by norm_num [initialScale])
    (by norm_num [initialScale])

/-- Witness for C9 at a concrete interaction sequence. -/
theorem c9_zoom_scale_bounded_witness :
    1/10 ≤ [ZoomOp.zin, ZoomOp.slider (1/2), ZoomOp.zout].foldl applyZoom initialScale ∧
    [ZoomOp.zin, ZoomOp.slider (1/2), ZoomOp.zout].foldl applyZoom initialScale ≤ 3 := by
  apply c9_zoom_scale_bounded
  intro op hop
  simp only [List.mem_cons, List.not_mem_nil, or_false] at hop
  rcases hop with rfl | rfl | rfl
  · trivial
  · exact ⟨by norm_num, by norm_num⟩
  · trivial

/-- C6: clearing the editor sets the text to the empty string; after the
editor round trip the derived preview is the unchanged empty string and the
preview pane renders the placeholder. -/
theorem c6_clear_empties_preview (st : ViewerState) (parsed : Option SvgEl) :
    (clearThenSync st parsed).1.svgCode = "" ∧
    (clearThenSync st parsed).1.previewSvgCode = .original "" ∧
    previewShowsPlaceholder (clearThenSync st parsed).1.previewSvgCode = true ∧
    (clearThenSync st parsed).2 = [.info "SVG 内容已清除"] := by
  simp [clearThenSync, clearSvgCode, onEditorDocChanged, ensureSvgDimensions,
    previewShowsPlaceholder]

/-- C10: pasting from the clipboard replaces the editor text only when the
clipboard content passes the validity check; on invalid content or a failed
read the editor text is unchanged and a single error toast is raised. -/
theorem c10_paste_atomic (svgCode : String) (clip : Except Unit String) :
    (∀ t, clip = .ok t → isValidSvg t = true →
        handlePasteFromClipboard svgCode clip = (t, [.success "已从剪贴板导入SVG"])) ∧
    (∀ t, clip = .ok t → isValidSvg t = false →
        handlePasteFromClipboard svgCode clip =
          (svgCode, [.error "剪贴板内容不是有效的SVG"])) ∧
    (∀ e, clip = .error e →
        handlePasteFromClipboard svgCode clip = (svgCode, [.error "从剪贴板读取失败"])) := by
  refine ⟨?_, ?_, ?_⟩
  · rintro t rfl hv
    simp [handlePasteFromClipboard, hv]
  · rintro t rfl hv
    simp [handlePasteFromClipboard, hv]
  · rintro e rfl
    simp [handlePasteFromClipboard]

/-- Witness for C10 at a concrete clipboard read. -/
theorem c10_paste_atomic_witness :
    handlePasteFromClipboard "x" (.ok "<svg></svg>") =
      ("<svg></svg>", [.success "已从剪贴板导入SVG"]) :=
  (c10_paste_atomic "x" (.ok "<svg></svg>")).1 "<svg></svg>" rfl (by decide)

/-- C7: every modelled failure of a user action — no svg root in the code,
image decode failure, unavailable canvas context, clipboard read failure,
invalid pasted content, clipboard write failure — ends in a normal return
carrying exactly one error toast, with nothing saved, no state change and no
copy performed. -/
theorem c7_failures_toast_only (svgCode fileName : String) (fmt : ExportFormat)
    (el : SvgEl) (load ctx : Bool) (t : String) :
    (svgCode ≠ "" →
      exportAsImage svgCode fileName fmt none load ctx =
        ⟨[.error "无效的SVG代码"], none, none⟩) ∧
    (svgCode ≠ "" → load = false →
      exportAsImage svgCode fileName fmt (some el) load ctx =
        ⟨[.error "导出失败，请重试"], none, none⟩) ∧
    (svgCode ≠ "" → ctx = false →
      exportAsImage svgCode fileName fmt (some el) load ctx =
        ⟨[.error "导出失败，请重试"], none, none⟩) ∧
    (handlePasteFromClipboard svgCode (.error ()) =
      (svgCode, [.error "从剪贴板读取失败"])) ∧
    (isValidSvg t = false →
      handlePasteFromClipboard svgCode (.ok t) =
        (svgCode, [.error "剪贴板内容不是有效的SVG"])) ∧
    (jsTrim svgCode ≠ "" → copySvgCode svgCode false = ([.error "复制到剪贴板失败"], false)) := by
  refine ⟨?_, ?_, ?_, ?_, ?_, ?_⟩
  · intro h
    simp [exportAsImage, h]
  · rintro h rfl
    simp [exportAsImage, h]
  · rintro h rfl
    cases load <;> simp [exportAsImage, h]
  · simp [handlePasteFromClipboard]
  · intro hv
    simp [handlePasteFromClipboard, hv]
  · intro h
    simp [copySvgCode, h]

/-- Witness for C7 at concrete failing actions. -/
theorem c7_failures_toast_only_witness :
    exportAsImage "x" "f" .png none true true = ⟨[.error "无效的SVG代码"], none, none⟩ ∧
    exportAsImage "x" "f" .png (some ⟨none, none, none⟩) false true =
      ⟨[.error "导出失败，请重试"], none, none⟩ ∧
    copySvgCode "x" false = ([.error "复制到剪贴板失败"], false) := by
  have h := c7_failures_toast_only "x" "f" .png ⟨none, none, none⟩ false true "bad"
  exact ⟨h.1 (by decide), h.2.1 (by decide) rfl, h.2.2.2.2.2 (by decide)⟩

/-- C5 counterexample: the editor text "hello" is malformed (it fails the
validity check and is not empty), yet the download and copy buttons are not
disabled. -/
theorem c5_counterexample :
    isValidSvg "hello" = false ∧ ("hello" : String) ≠ "" ∧
    downloadSvgDisabled "hello" = false ∧ copySvgDisabled "hello" = false := by
  refine ⟨by decide, by decide, by decide, by decide⟩

/-- C5 amended: the PNG and JPEG export buttons are disabled whenever the
editor text is malformed (empty or failing the validity check); the download
and copy buttons are disabled exactly when the editor text is empty. -/
theorem c5_amended_disabled (s : String) :
    ((s = "" ∨ isValidSvg s = false) →
        exportPngDisabled s = true ∧ exportJpegDisabled s = true) ∧
    (downloadSvgDisabled s = true ↔ s = "") ∧
    (copySvgDisabled s = true ↔ s = "") := by
  refine ⟨?_, by simp [downloadSvgDisabled], by simp [copySvgDisabled]⟩
  rintro (rfl | hv)
  · simp [exportPngDisabled, exportJpegDisabled]
  · simp [exportPngDisabled, exportJpegDisabled, hv]

/-- Witness for the amended C5 at a concrete malformed text. -/
theorem c5_amended_disabled_witness :
    exportPngDisabled "hello" = true ∧ exportJpegDisabled "hello" = true :=
  (c5_amended_disabled "hello").1 (Or.inr (by decide))

/-- C2: whenever the svg export path or the download path saves a file, the
saved blob is built from the svgCode string itself (byte-identical, no
dimension normalization), and both paths do save it in the non-degenerate
case. -/
theorem c2_svg_export_byte_identical (svgCode fileName : String)
    (parsed : Option SvgEl) (load ctx : Bool) (h : svgCode ≠ "") :
    (∀ fn content,
        (exportAsImage svgCode fileName .svg parsed load ctx).saved = some (fn, content) →
        fn = fileName ++ ".svg" ∧
        content = .blobStr svgCode "image/svg+xml;charset=utf-8") ∧
    (∀ el, parsed = some el → load = true → ctx = true →
        (exportAsImage svgCode fileName .svg parsed load ctx).saved =
          some (fileName ++ ".svg", .blobStr svgCode "image/svg+xml;charset=utf-8")) ∧
    (jsTrim svgCode ≠ "" →
        downloadSvgCode svgCode fileName =
          ([.success "SVG 代码已下载"],
           some (fileName ++ ".svg", .blobStr svgCode "text/plain;charset=utf-8"))) := by
  refine ⟨?_, ?_, ?_⟩
  · intro fn content hsaved
    cases parsed with
    | none => simp [exportAsImage, h] at hsaved
    | some el =>
      cases load with
      | false => simp [exportAsImage, h] at hsaved
      | true =>
        cases ctx with
        | false => simp [exportAsImage, h] at hsaved
        | true =>
          simp [exportAsImage, h] at hsaved
          exact ⟨hsaved.1.symm, hsaved.2.symm⟩
  · rintro el rfl rfl rfl
    simp [exportAsImage, h]
  · intro ht
    simp [downloadSvgCode, ht]

/-- Witness for C2 at a concrete editor text. -/
theorem c2_svg_export_byte_identical_witness :
    (exportAsImage "<svg></svg>" "a" .svg (some ⟨none, none, none⟩) true true).saved =
      some ("a" ++ ".svg", .blobStr "<svg></svg>" "image/svg+xml;charset=utf-8") :=
  (c2_svg_export_byte_identical "<svg></svg>" "a" (some ⟨none, none, none⟩) true true
      (by decide)).2.1 ⟨none, none, none⟩ rfl rfl rfl

/-- Evaluation of jsNumber on plain decimal literals, used at concrete
inputs. -/
theorem jsNumber_zero : jsNumber "0" = some 0 := by
  simp [jsNumber, trimJsWs, parseUnsignedNum, parseDecMantissa, parseExpPart,
    digitsToNat, digitVal, isJsWs, isAsciiDigit]

theorem jsNumber_hundred : jsNumber "100" = some 100 := by
  simp [jsNumber, trimJsWs, parseUnsignedNum, parseDecMantissa, parseExpPart,
    digitsToNat, digitVal, isJsWs, isAsciiDigit]

theorem jsNumber_fifty : jsNumber "50" = some 50 := by
  simp [jsNumber, trimJsWs, parseUnsignedNum, parseDecMantissa, parseExpPart,
    digitsToNat, digitVal, isJsWs, isAsciiDigit]

/-- parseInt of the '0' fallback used for an absent attribute. -/
theorem jsParseInt_zero : jsParseInt "0" = some 0 := by decide

/-- An absent width/height attribute parses to 0, which is falsy. -/
theorem exportAttr_absent_falsy :
    jsFalsy ((jsParseInt (attrOrZero none)).map (fun i => (i : ℚ))) = true := by
  simp [attrOrZero, jsParseInt_zero, jsFalsy]

/-- C4: the dimension-inference fallback order.  For ensureSvgDimensions:
explicit width/height attributes are kept unchanged; a missing one is taken
from a four-component viewBox when present; otherwise the default 300 is
used.  For exportAsImage (where an attribute counts as present when it
parses to a nonzero number): truthy parsed attributes are kept; otherwise a
four-component viewBox with truthy third and fourth components supplies both
dimensions; otherwise the default 800x600 is used. -/
theorem c4_fallback_order (el : SvgEl) :
    (el.width ≠ none → el.height ≠ none →
      ensureSvgDimensionsCore el = ⟨el.width.map .str, el.height.map .str⟩) ∧
    (∀ vbs, el.viewBox = some vbs → (splitViewBox vbs).length = 4 →
      ensureSvgDimensionsCore el =
        ⟨some (match el.width with
               | some w => .str w
               | none => .ofNum ((splitViewBox vbs).getD 2 none)),
         some (match el.height with
               | some h => .str h
               | none => .ofNum ((splitViewBox vbs).getD 3 none))⟩) ∧
    ((el.viewBox = none ∨ ∀ vbs, el.viewBox = some vbs → (splitViewBox vbs).length ≠ 4) →
      ensureSvgDimensionsCore el =
        ⟨some (match el.width with | some w => .str w | none => .str "300"),
         some (match el.height with | some h => .str h | none => .str "300")⟩) ∧
    (jsFalsy (exportAttrDims el).1 = false → jsFalsy (exportAttrDims el).2 = false →
      exportDims el = exportAttrDims el) ∧
    (∀ vbs, el.viewBox = some vbs → (splitViewBox vbs).length = 4 →
      (jsFalsy (exportAttrDims el).1 = true ∨ jsFalsy (exportAttrDims el).2 = true) →
      jsFalsy ((splitViewBox vbs).getD 2 none) = false →
      jsFalsy ((splitViewBox vbs).getD 3 none) = false →
      exportDims el = ((splitViewBox vbs).getD 2 none, (splitViewBox vbs).getD 3 none)) ∧
    ((jsFalsy (exportAttrDims el).1 = true ∨ jsFalsy (exportAttrDims el).2 = true) →
      (el.viewBox = none ∨ ∀ vbs, el.viewBox = some vbs →
        ((splitViewBox vbs).length ≠ 4 ∨
         jsFalsy ((splitViewBox vbs).getD 2 none) = true ∨
         jsFalsy ((splitViewBox vbs).getD 3 none) = true)) →
      exportDims el = (some 800, some 600)) := by
  obtain ⟨ow, oh, ovb⟩ := el
  refine ⟨?_, ?_, ?_, ?_, ?_, ?_⟩
  · intro hw hh
    match ow, oh with
    | some w, some h => simp [ensureSvgDimensionsCore]
    | none, _ => simp at hw
    | some w, none => simp at hh
  · rintro vbs rfl hlen
    match ow, oh with
    | some w, some h => simp [ensureSvgDimensionsCore]
    | none, some h => simp [ensureSvgDimensionsCore, hlen]
    | some w, none => simp [ensureSvgDimensionsCore, hlen]
    | none, none => simp [ensureSvgDimensionsCore, hlen]
  · rintro (rfl | hne)
    · match ow, oh with
      | some w, some h => simp [ensureSvgDimensionsCore]
      | none, some h => simp [ensureSvgDimensionsCore]
      | some w, none => simp [ensureSvgDimensionsCore]
      | none, none => simp [ensureSvgDimensionsCore]
    · cases hvb : ovb with
      | none =>
        match ow, oh with
        | some w, some h => simp [ensureSvgDimensionsCore]
        | none, some h => simp [ensureSvgDimensionsCore]
        | some w, none => simp [ensureSvgDimensionsCore]
        | none, none => simp [ensureSvgDimensionsCore]
      | some vbs =>
        have hlen := hne vbs hvb
        match ow, oh with
        | some w, some h => simp [ensureSvgDimensionsCore]
        | none, some h => simp [ensureSvgDimensionsCore, hlen]
        | some w, none => simp [ensureSvgDimensionsCore, hlen]
        | none, none => simp [ensureSvgDimensionsCore, hlen]
  · intro hw hh
    simp [exportDims, hw, hh]
  · rintro vbs rfl hlen hfalsy hc hd
    rw [List.getD_eq_getElem _ _ (by omega)] at hc hd
    rcases hfalsy with hf | hf <;>
      simp [exportDims, hf, hlen, hc, hd, List.getD_eq_getElem _ _ (by omega : 2 < (splitViewBox vbs).length), List.getD_eq_getElem _ _ (by omega : 3 < (splitViewBox vbs).length)]
  · intro hfalsy hvb
    cases ovb with
    | none =>
      rcases hfalsy with hf | hf <;> simp [exportDims, hf]
    | some vbs =>
      rcases hvb with h | hne
      · exact absurd h (by simp)
      have h3 := hne vbs rfl
      by_cases hlen : (splitViewBox vbs).length = 4
      · rcases h3 with h3 | hc | hc
        · exact absurd hlen h3
        · rw [List.getD_eq_getElem _ _ (by omega)] at hc
          rcases hfalsy with hf | hf <;> simp [exportDims, hf, hlen, hc]
        · rw [List.getD_eq_getElem _ _ (by omega)] at hc
          rcases hfalsy with hf | hf <;> simp [exportDims, hf, hlen, hc]
      · rcases hfalsy with hf | hf <;> simp [exportDims, hf, hlen]

/-- Witness for C4 at a concrete element. -/
theorem c4_fallback_order_witness :
    ensureSvgDimensionsCore ⟨some "10", some "20", none⟩ =
      ⟨some (.str "10"), some (.str "20")⟩ :=
  (c4_fallback_order ⟨some "10", some "20", none⟩).1 (by simp) (by simp)

/-- An element with an absent width attribute has a falsy first export
attribute dimension (and symmetrically for height). -/
theorem exportAttrDims_width_absent_falsy (oh ovb : Option String) :
    jsFalsy (exportAttrDims ⟨none, oh, ovb⟩).1 = true :=
  exportAttr_absent_falsy

theorem exportAttrDims_height_absent_falsy (ow ovb : Option String) :
    jsFalsy (exportAttrDims ⟨ow, none, ovb⟩).2 = true :=
  exportAttr_absent_falsy

/-- C8: the hardcoded defaults of the two inference routines differ — the
preview normalization falls back to 300/300 while the export rasterization
falls back to 800x600 — and exportAsImage treats a width or height attribute
whose parseInt value is 0 or NaN exactly like an absent attribute. -/
theorem c8_defaults_differ (el : SvgEl) (s : String) :
    (el.width = none → el.height = none →
      (el.viewBox = none ∨ ∀ vbs, el.viewBox = some vbs → (splitViewBox vbs).length ≠ 4) →
      ensureSvgDimensionsCore el = ⟨some (.str "300"), some (.str "300")⟩ ∧
      exportDims el = (some 800, some 600)) ∧
    (jsFalsy ((jsParseInt (attrOrZero (some s))).map (fun i => (i : ℚ))) = true →
      exportDims { el with width := some s } = exportDims { el with width := none } ∧
      exportDims { el with height := some s } = exportDims { el with height := none }) := by
  obtain ⟨ow, oh, ovb⟩ := el
  constructor
  · rintro rfl rfl hvb
    constructor
    · cases ovb with
      | none => simp [ensureSvgDimensionsCore]
      | some vbs =>
        rcases hvb with h | hne
        · exact absurd h (by simp)
        have hlen := hne vbs rfl
        simp [ensureSvgDimensionsCore, hlen]
    · cases ovb with
      | none =>
        simp [exportDims, exportAttrDims_width_absent_falsy,
          exportAttrDims_height_absent_falsy]
      | some vbs =>
        rcases hvb with h | hne
        · exact absurd h (by simp)
        have hlen := hne vbs rfl
        simp [exportDims, exportAttrDims_width_absent_falsy,
          exportAttrDims_height_absent_falsy, hlen]
  · intro hf
    have hfw : ∀ oh2 ovb2 : Option String,
        jsFalsy (exportAttrDims ⟨some s, oh2, ovb2⟩).1 = true := fun _ _ => hf
    have hfh : ∀ ow2 ovb2 : Option String,
        jsFalsy (exportAttrDims ⟨ow2, some s, ovb2⟩).2 = true := fun _ _ => hf
    constructor
    · cases ovb with
      | none =>
        simp [exportDims, hfw, exportAttrDims_width_absent_falsy]
      | some vbs =>
        by_cases hlen : (splitViewBox vbs).length = 4 <;>
          simp [exportDims, hfw, exportAttrDims_width_absent_falsy, hlen]
    · cases ovb with
      | none =>
        simp [exportDims, hfh, exportAttrDims_height_absent_falsy]
      | some vbs =>
        by_cases hlen : (splitViewBox vbs).length = 4 <;>
          simp [exportDims, hfh, exportAttrDims_height_absent_falsy, hlen]

/-- Witness for C8 at a concrete element and attribute value. -/
theorem c8_defaults_differ_witness :
    (ensureSvgDimensionsCore ⟨none, none, none⟩ = ⟨some (.str "300"), some (.str "300")⟩ ∧
      exportDims ⟨none, none, none⟩ = (some 800, some 600)) ∧
    exportDims ⟨some "abc", none, none⟩ = exportDims ⟨none, none, none⟩ := by
  have h := c8_defaults_differ ⟨none, none, none⟩ "abc"
  refine ⟨h.1 rfl rfl (Or.inl rfl), (h.2 ?_).1⟩
  decide

/-- A nonzero number is truthy. -/
theorem jsFalsy_some_ne_zero {q : ℚ} (h : q ≠ 0) : jsFalsy (some q) = false := by
  simp [jsFalsy, h]

/-- Zero is falsy. -/
theorem jsFalsy_some_zero : jsFalsy (some (0 : ℚ)) = true := by
  simp [jsFalsy]

/-- C1 as stated is false: the source below lacks width and height and its
viewBox consists of the four space-separated numbers 0 0 0 100, yet the
export rasterization does not use the viewBox width 0 and height 100 (it
falls back to 800x600 because the viewBox width 0 is falsy). -/
theorem c1_counterexample :
    isValidSvg "<svg viewBox=\"0 0 0 100\"></svg>" = true ∧
    (⟨none, none, some "0 0 0 100"⟩ : SvgEl).width = none ∧
    (⟨none, none, some "0 0 0 100"⟩ : SvgEl).height = none ∧
    jsSplitSpace "0 0 0 100" = ["0", "0", "0", "100"] ∧
    jsNumber "0" = some 0 ∧ jsNumber "100" = some 100 ∧
    exportDims ⟨none, none, some "0 0 0 100"⟩ = (some 800, some 600) ∧
    exportDims ⟨none, none, some "0 0 0 100"⟩ ≠ (some 0, some 100) := by
  have hsv : splitViewBox "0 0 0 100" = [some 0, some 0, some 0, some 100] := by
    simp [splitViewBox, show jsSplitSpace "0 0 0 100" = ["0", "0", "0", "100"] from by decide,
      jsNumber_zero, jsNumber_hundred]
  have hexp : exportDims ⟨none, none, some "0 0 0 100"⟩ = (some 800, some 600) := by
    simp [exportDims, exportAttrDims_width_absent_falsy, exportAttrDims_height_absent_falsy,
      hsv, jsFalsy_some_zero]
  refine ⟨by decide, rfl, rfl, by decide, jsNumber_zero, jsNumber_hundred, hexp, ?_⟩
  rw [hexp]
  simp

/-- C1 amended: for a valid SVG source lacking a width or height attribute
whose viewBox consists of four space-separated numbers with nonzero third
and fourth components, ensureSvgDimensions sets each missing dimension
attribute to the corresponding viewBox component (and reserializes the
document), and exportAsImage rasterizes on a canvas of exactly the viewBox
width and height. -/
theorem c1_amended (raw : String) (el : SvgEl) (vbs a b c d : String)
    (qa qb qc qd : ℚ) (fileName : String) (fmt : ExportFormat)
    (hvalid : isValidSvg raw = true)
    (hmiss : el.width = none ∨ el.height = none)
    (hvb : el.viewBox = some vbs)
    (hsplit : jsSplitSpace vbs = [a, b, c, d])
    (ha : jsNumber a = some qa) (hb : jsNumber b = some qb)
    (hc : jsNumber c = some qc) (hd : jsNumber d = some qd)
    (hqc : qc ≠ 0) (hqd : qd ≠ 0) :
    (el.width = none → (ensureSvgDimensionsCore el).width = some (.ofNum (some qc))) ∧
    (el.height = none → (ensureSvgDimensionsCore el).height = some (.ofNum (some qd))) ∧
    ensureSvgDimensions raw (some el) = .reserialized el (ensureSvgDimensionsCore el) ∧
    exportDims el = (some qc, some qd) ∧
    (exportAsImage raw fileName fmt (some el) true true).canvas =
      some (some qc, some qd) := by
  obtain ⟨ow, oh, ovb⟩ := el
  simp only at hvb hmiss ⊢
  subst hvb
  have hsv : splitViewBox vbs = [some qa, some qb, some qc, some qd] := by
    simp [splitViewBox, hsplit, ha, hb, hc, hd]
  have hrawne : raw ≠ "" := by
    rintro rfl
    rw [show isValidSvg "" = false from by decide] at hvalid
    cases hvalid
  have hexp : exportDims ⟨ow, oh, some vbs⟩ = (some qc, some qd) := by
    rcases hmiss with rfl | rfl
    · simp [exportDims, exportAttrDims_width_absent_falsy, hsv,
        jsFalsy_some_ne_zero hqc, jsFalsy_some_ne_zero hqd]
    · simp [exportDims, exportAttrDims_height_absent_falsy, hsv,
        jsFalsy_some_ne_zero hqc, jsFalsy_some_ne_zero hqd]
  refine ⟨?_, ?_, ?_, hexp, ?_⟩
  · rintro rfl
    cases oh <;> simp [ensureSvgDimensionsCore, hsv]
  · rintro rfl
    cases ow <;> simp [ensureSvgDimensionsCore, hsv]
  · simp [ensureSvgDimensions, hvalid, hrawne]
  · simp [exportAsImage, hrawne, hexp]

/-- Witness for the amended C1 at a concrete source. -/
theorem c1_amended_witness :
    (ensureSvgDimensionsCore ⟨none, none, some "0 0 100 50"⟩).width =
      some (.ofNum (some 100)) ∧
    exportDims ⟨none, none, some "0 0 100 50"⟩ = (some 100, some 50) := by
  have h := c1_amended "<svg viewBox=\"0 0 100 50\"></svg>" ⟨none, none, some "0 0 100 50"⟩
    "0 0 100 50" "0" "0" "100" "50" 0 0 100 50 "f" .png (by decide) (Or.inl rfl) rfl
    (by decide) jsNumber_zero jsNumber_zero jsNumber_hundred jsNumber_fifty
    (by norm_num) (by norm_num)
  exact ⟨h.1 rfl, h.2.2.2.1⟩

/-- Characterisation of a successful case-insensitive prefix strip. -/
theorem stripCiStart_some_iff (pat : List Char) :
    ∀ (cs rest : List Char),
      stripCiStart pat cs = some rest ↔ ∃ o, cs = o ++ rest ∧ ciMatches pat o := by
  induction pat with
  | nil =>
    intro cs rest
    simp only [stripCiStart, Option.some.injEq, ciMatches, List.forall₂_nil_left_iff]
    constructor
    · rintro rfl
      exact ⟨[], by simp, rfl⟩
    · rintro ⟨o, heq, rfl⟩
      simpa using heq
  | cons p ps ih =>
    intro cs rest
    cases cs with
    | nil =>
      simp only [stripCiStart]
      constructor
      · intro h; cases h
      · rintro ⟨o, heq, hm⟩
        cases hm with
        | cons hR hm2 => simp at heq
    | cons c cs2 =>
      simp only [stripCiStart]
      by_cases hlc : lcEq p c = true
      · rw [if_pos hlc, ih cs2 rest]
        constructor
        · rintro ⟨o, rfl, hm⟩
          exact ⟨c :: o, rfl, List.Forall₂.cons hlc hm⟩
        · rintro ⟨o, heq, hm⟩
          cases hm with
          | cons hR hm2 =>
            rw [List.cons_append] at heq
            injection heq with h1 h2
            subst h1
            exact ⟨_, h2, hm2⟩
      · rw [if_neg hlc]
        constructor
        · intro h; cases h
        · rintro ⟨o, heq, hm⟩
          cases hm with
          | cons hR hm2 =>
            rw [List.cons_append] at heq
            injection heq with h1 h2
            subst h1
            exact absurd hR hlc

/-- Characterisation of a case-insensitive containment test. -/
theorem containsCi_iff (pat : List Char) :
    ∀ cs, containsCi pat cs = true ↔
      ∃ q o r, cs = q ++ o ++ r ∧ ciMatches pat o := by
  intro cs
  induction cs with
  | nil =>
    rw [show containsCi pat [] = (stripCiStart pat []).isSome from rfl,
      Option.isSome_iff_exists]
    constructor
    · rintro ⟨rest, h⟩
      rw [stripCiStart_some_iff] at h
      obtain ⟨o, heq, hm⟩ := h
      obtain ⟨rfl, rfl⟩ := List.append_eq_nil.mp heq.symm
      exact ⟨[], [], [], rfl, hm⟩
    · rintro ⟨q, o, r, heq, hm⟩
      obtain ⟨h1, rfl⟩ := List.append_eq_nil.mp heq.symm
      obtain ⟨rfl, rfl⟩ := List.append_eq_nil.mp h1
      exact ⟨[], (stripCiStart_some_iff pat [] []).mpr ⟨[], rfl, hm⟩⟩
  | cons c cs2 ih =>
    rw [show containsCi pat (c :: cs2) =
        ((stripCiStart pat (c :: cs2)).isSome || containsCi pat cs2) from rfl,
      Bool.or_eq_true, Option.isSome_iff_exists, ih]
    constructor
    · rintro (⟨rest, h⟩ | ⟨q, o, r, rfl, hm⟩)
      · rw [stripCiStart_some_iff] at h
        obtain ⟨o, heq, hm⟩ := h
        exact ⟨[], o, rest, by simpa using heq, hm⟩
      · exact ⟨c :: q, o, r, rfl, hm⟩
    · rintro ⟨q, o, r, heq, hm⟩
      cases q with
      | nil =>
        exact Or.inl ⟨r, (stripCiStart_some_iff pat _ r).mpr ⟨o, by simpa using heq, hm⟩⟩
      | cons q0 qs =>
        rw [List.cons_append, List.cons_append] at heq
        injection heq with h1 h2
        exact Or.inr ⟨qs, o, r, h2, hm⟩

/-- Characterisation of the scan past the opening tag: the regex [^>]*>
consumes exactly the closing-bracket-free stretch up to a closing bracket,
after which the closing tag may occur anywhere. -/
theorem afterOpenTag_iff :
    ∀ cs, afterOpenTag cs = true ↔
      ∃ m rest, cs = m ++ '>' :: rest ∧ '>' ∉ m ∧
        containsCi ("</svg>".toList) rest = true := by
  intro cs
  induction cs with
  | nil =>
    simp only [afterOpenTag]
    constructor
    · intro h; cases h
    · rintro ⟨m, rest, heq, hnm, hct⟩
      cases m <;> simp at heq
  | cons c cs2 ih =>
    by_cases hc : c = '>'
    · subst hc
      rw [show afterOpenTag ('>' :: cs2) = containsCi ("</svg>".toList) cs2 from by
        simp [afterOpenTag]]
      constructor
      · intro h
        exact ⟨[], cs2, rfl, by simp, h⟩
      · rintro ⟨m, rest, heq, hnm, hct⟩
        cases m with
        | nil =>
          simp only [List.nil_append] at heq
          injection heq with h1 h2
          subst h2
          exact hct
        | cons m0 ms =>
          rw [List.cons_append] at heq
          injection heq with h1 h2
          subst h1
          exact absurd (List.mem_cons_self _ _) hnm
    · rw [show afterOpenTag (c :: cs2) = afterOpenTag cs2 from by simp [afterOpenTag, hc], ih]
      constructor
      · rintro ⟨m, rest, rfl, hnm, hct⟩
        refine ⟨c :: m, rest, rfl, ?_, hct⟩
        simp only [List.mem_cons, not_or]
        exact ⟨fun h => hc h.symm, hnm⟩
      · rintro ⟨m, rest, heq, hnm, hct⟩
        cases m with
        | nil =>
          simp only [List.nil_append] at heq
          injection heq with h1 h2
          exact absurd h1 hc
        | cons m0 ms =>
          rw [List.cons_append] at heq
          injection heq with h1 h2
          subst h1
          refine ⟨ms, rest, h2, fun h => hnm (List.mem_cons_of_mem _ h), hct⟩

/-- Characterisation of the position scan of the whole regex match. -/
theorem isValidSvgAux_iff :
    ∀ cs, isValidSvgAux cs = true ↔
      ∃ p o rest, cs = p ++ o ++ rest ∧ ciMatches ("<svg".toList) o ∧
        afterOpenTag rest = true := by
  intro cs
  induction cs with
  | nil =>
    simp only [isValidSvgAux]
    constructor
    · intro h; cases h
    · rintro ⟨p, o, rest, heq, hm, haf⟩
      obtain ⟨h1, rfl⟩ := List.append_eq_nil.mp heq.symm
      obtain ⟨rfl, rfl⟩ := List.append_eq_nil.mp h1
      simp [afterOpenTag] at haf
  | cons c cs2 ih =>
    have hmatch : ∀ csx : List Char,
        (match stripCiStart ("<svg".toList) csx with
          | some rest => afterOpenTag rest
          | none => false) = true ↔
        ∃ rest, stripCiStart ("<svg".toList) csx = some rest ∧ afterOpenTag rest = true := by
      intro csx
      cases h : stripCiStart ("<svg".toList) csx <;> simp [h]
    rw [show isValidSvgAux (c :: cs2) =
        ((match stripCiStart ("<svg".toList) (c :: cs2) with
          | some rest => afterOpenTag rest
          | none => false) || isValidSvgAux cs2) from rfl,
      Bool.or_eq_true, hmatch, ih]
    constructor
    · rintro (⟨rest, hstrip, haf⟩ | ⟨p, o, rest, rfl, hm, haf⟩)
      · rw [stripCiStart_some_iff] at hstrip
        obtain ⟨o, heq, hm⟩ := hstrip
        exact ⟨[], o, rest, by simpa using heq, hm, haf⟩
      · exact ⟨c :: p, o, rest, rfl, hm, haf⟩
    · rintro ⟨p, o, rest, heq, hm, haf⟩
      cases p with
      | nil =>
        refine Or.inl ⟨rest, (stripCiStart_some_iff _ _ rest).mpr ⟨o, by simpa using heq, hm⟩,
          haf⟩
      | cons p0 ps =>
        rw [List.cons_append, List.cons_append] at heq
        injection heq with h1 h2
        exact Or.inr ⟨ps, o, rest, h2, hm, haf⟩

/-- C3: the validity check accepts a string exactly when it contains, case
insensitively, an opening <svg...> tag followed somewhere later by a closing
</svg> tag. -/
theorem c3_valid_iff_matches (s : String) : isValidSvg s = true ↔ matchesSvgTags s := by
  rw [show isValidSvg s = isValidSvgAux s.toList from rfl, isValidSvgAux_iff]
  constructor
  · rintro ⟨p, o, rest, heq, hm, haf⟩
    rw [afterOpenTag_iff] at haf
    obtain ⟨m, rest2, rfl, hnm, hct⟩ := haf
    rw [containsCi_iff] at hct
    obtain ⟨q, c2, r, rfl, hmc⟩ := hct
    refine ⟨p, o, m, q, c2, r, ?_, hm, hnm, hmc⟩
    simpa [List.append_assoc] using heq
  · rintro ⟨p, o, m, q, c2, r, heq, hm, hnm, hmc⟩
    refine ⟨p, o, m ++ '>' :: (q ++ c2 ++ r), ?_, hm,
      (afterOpenTag_iff _).mpr ⟨m, q ++ c2 ++ r, rfl, hnm,
        (containsCi_iff _ _).mpr ⟨q, c2, r, rfl, hmc⟩⟩⟩
    simpa [List.append_assoc] using heq
